import Mathlib

/-!
# Verification of the sqluct mapping layer

Shallow embedding of the sqluct package (Go): the field-tag reflection
mapper (`mapper.go`), the identifier referencer and quoting helpers
(`statement` part), and the transaction wrapper (`storage.go`), together
with theorems settling the frozen claims about them.

Go values that matter to the mapper are modelled by `Val`; struct types
are modelled by their flattened field index (what `reflectx` produces as
`StructMap.Index`), each entry carrying the raw struct tag, the embedded
flag and a flag recording whether some ancestor is a named (non-embedded)
field with a non-empty path.  Pointer identity is modelled by `Nat`
tokens.  Panics are modelled as `Except String` errors.
-/

namespace Sqluct

/-- A Go value as seen by the mapper through `reflect`:
integers, floats are collapsed into `vInt`/`vStr` style scalars, plus
slices and maps whose zero test is emptiness (`isZero` in mapper.go). -/
inductive Val where
  | vInt : Int → Val
  | vStr : String → Val
  | vSlice : List Val → Val
  | vMap : List (Val × Val) → Val

/-- `isZero` from mapper.go: slice/map kinds are zero iff empty,
other kinds are zero iff equal to the type's zero value. -/
def isZero : Val → Bool
  | .vInt n => n == 0
  | .vStr s => s == ""
  | .vSlice l => l.isEmpty
  | .vMap l => l.isEmpty

/-- A raw struct field as reflection exposes it before tag parsing:
Go field name, the `db` struct-tag text (empty when untagged), whether the
entry is an embedded (anonymous) promotion, and whether some ancestor of
the field is a named (non-embedded) field with a non-empty path (the
condition `Mapper.typeMap` uses to drop the entry). -/
structure RawField where
  goName : String
  tag : String
  embedded : Bool := false
  parentNamed : Bool := false
  deriving DecidableEq, Repr

/-- Parsed field metadata, the relevant projection of
`reflectx.FieldInfo`: resolved column name, raw tag, embedded flag,
named-parent flag and the `omitempty` option. -/
structure FieldInfo where
  Name : String
  tag : String
  embedded : Bool
  parentNamed : Bool
  omitempty : Bool
  deriving DecidableEq, Repr

/-- Splitting a character list at commas (`strings.Split(tag, ",")`). -/
def splitCommaChars : List Char → List (List Char)
  | [] => [[]]
  | c :: rest =>
    match splitCommaChars rest with
    | [] => [[c]]
    | g :: gs => if c = ',' then [] :: g :: gs else (c :: g) :: gs

/-- Splitting a string at commas. -/
def splitComma (s : String) : List String :=
  (splitCommaChars s.data).map (fun l => ⟨l⟩)

/-- Tag parsing done by `reflectx` for the `db` key: the column name is
the part before the first comma, the remaining comma-separated parts are
options (`omitempty` among them); an untagged field keeps its Go name and
has no options. -/
def parseDBTag (f : RawField) : FieldInfo :=
  if f.tag = "" then
    { Name := f.goName, tag := "", embedded := f.embedded
      parentNamed := f.parentNamed, omitempty := false }
  else
    let parts := splitComma f.tag
    { Name := parts.headD f.goName
      tag := f.tag
      embedded := f.embedded
      parentNamed := f.parentNamed
      omitempty := parts.tail.contains "omitempty" }

/-- A reflect mapper turns a raw field into its parsed metadata;
`reflectx.NewMapper "db"` (the process-wide default) is `parseDBTag`. -/
def RMapper := RawField → FieldInfo

/-- The default reflect mapper `reflectMapper = reflectx.NewMapper("db")`. -/
def reflectMapper : RMapper := parseDBTag

/-- Dialect of SQL statements.

Modelled from the spec: the `Dialect` enumeration (constants
`DialectUnknown`, `DialectMySQL`, `DialectSQLite3`, `DialectPostgres`) is
declared outside the provided sources; the spec describes it as a small
enumerated value with an "unspecified" member and three recognized
dialects, consumed by the insert-conflict-policy feature, with any other
value unrecognized (`other`). -/
inductive Dialect where
  | unknown : Dialect
  | mysql : Dialect
  | sqlite3 : Dialect
  | postgres : Dialect
  | other : String → Dialect
  deriving DecidableEq, Repr

/-- `Mapper` from mapper.go: an optional custom reflect mapper and a
dialect (the memoizing `types` cache is semantically transparent and not
modelled). -/
structure Mapper where
  ReflectMapper : Option RMapper := none
  Dialect : Dialect := .unknown

/-- `defaultMapper = &Mapper{}`: the process-wide zero-value fallback. -/
def defaultMapper : Mapper := {}

/-- `mapper` from storage.go: nil falls back to the default mapper. -/
def mapper : Option Mapper → Mapper
  | none => defaultMapper
  | some m => m

/-- `Mapper.reflectMapper`: the custom reflect mapper when the receiver
is non-nil and has one, the package default otherwise.  The receiver is
`Option Mapper` with `none` standing for a nil `*Mapper`. -/
def Mapper.reflectMapperOf : Option Mapper → RMapper
  | some m => match m.ReflectMapper with
    | some rm => rm
    | none => reflectMapper
  | none => reflectMapper

/-- `Options` from mapper.go. -/
structure Options where
  SkipZeroValues : Bool := false
  IgnoreOmitEmpty : Bool := false
  Columns : List String := []
  PrepareColumn : Option (String → String) := none
  InsertIgnore : Bool := false

/-- A struct value: the flattened field index of its type paired with the
value stored in each field. -/
abbrev Rec := List (RawField × Val)

/-- `Mapper.typeMap`: a nil receiver falls back to `defaultMapper`, the
type's index is parsed by the resolved reflect mapper and entries with a
named (non-embedded) ancestor carrying a non-empty path are dropped.
Memoization in `sm.types` only caches this result and is not modelled. -/
def Mapper.typeMap (sm : Option Mapper) (t : List RawField) : List FieldInfo :=
  let smr := mapper sm
  ((t.map (Mapper.reflectMapperOf (some smr))).filter (fun fi => !fi.parentNamed))

/-- `Mapper.typeMap` applied to a struct value, keeping each field's
value paired with its parsed metadata. -/
def Mapper.typeMapVals (sm : Option Mapper) (v : Rec) : List (FieldInfo × Val) :=
  let smr := mapper sm
  ((v.map (fun fv => (Mapper.reflectMapperOf (some smr) fv.1, fv.2))).filter
    (fun fv => !fv.1.parentNamed))

/-- `Mapper.skip`: a field is skipped when it is embedded, untagged, or
absent from a non-empty explicit column allow-list. -/
def Mapper.skip (fi : FieldInfo) (columns : List String) : Bool :=
  if fi.embedded then true
  else if fi.tag = "" then true
  else if columns ≠ [] && !(columns.contains fi.Name) then true
  else false

/-- Column name resolution at emission: `o.PrepareColumn` when set,
the raw resolved name otherwise. -/
def prepCol (o : Options) (name : String) : String :=
  match o.PrepareColumn with
  | some f => f name
  | none => name

/-- Body of the loop of `Mapper.columnsValues` on the parsed index of a
struct value (the `skipValues = false` branch): skipped fields contribute
nothing; `omitempty` is deactivated by `IgnoreOmitEmpty`; a zero value is
dropped when `SkipZeroValues` or the (active) per-field `omitempty`
applies; otherwise the column and value are appended in lockstep. -/
def columnsValuesLoop (o : Options) : List (FieldInfo × Val) → List String × List Val
  | [] => ([], [])
  | (fi, val) :: rest =>
    let (cs, vs) := columnsValuesLoop o rest
    if Mapper.skip fi o.Columns then (cs, vs)
    else
      let omitEmpty := fi.omitempty && !o.IgnoreOmitEmpty
      if (o.SkipZeroValues || omitEmpty) && isZero val then (cs, vs)
      else (prepCol o fi.Name :: cs, val :: vs)

/-- `Mapper.columnsValues` on a struct value. -/
def Mapper.columnsValues (sm : Option Mapper) (v : Rec) (o : Options) :
    List String × List Val :=
  columnsValuesLoop o (Mapper.typeMapVals sm v)

/-- `Mapper.columnsValues` on a slice/array value (`skipValues = true`):
only the element type's column names are produced, values and the
zero-value test are skipped. -/
def Mapper.columnsOnly (sm : Option Mapper) (t : List RawField) (o : Options) :
    List String :=
  (Mapper.typeMap sm t).filterMap
    (fun fi => if Mapper.skip fi o.Columns then none else some (prepCol o fi.Name))

/-- State of a `squirrel.InsertBuilder` as far as the mapper drives it:
accumulated column list, rows of bound values, statement option keywords
(`Options("IGNORE")`) and suffix clauses. -/
structure InsertBuilder where
  columns : List String := []
  rows : List (List Val) := []
  opts : List String := []
  suffixes : List String := []

/-- `q.Columns(cols...)`. -/
def InsertBuilder.Columns (q : InsertBuilder) (cs : List String) : InsertBuilder :=
  { q with columns := q.columns ++ cs }

/-- `q.Values(vals...)`: appends one row. -/
def InsertBuilder.Values (q : InsertBuilder) (vs : List Val) : InsertBuilder :=
  { q with rows := q.rows ++ [vs] }

/-- `q.Options(keyword)`. -/
def InsertBuilder.Options (q : InsertBuilder) (s : String) : InsertBuilder :=
  { q with opts := q.opts ++ [s] }

/-- `q.Suffix(clause)`. -/
def InsertBuilder.Suffix (q : InsertBuilder) (s : String) : InsertBuilder :=
  { q with suffixes := q.suffixes ++ [s] }

/-- Adding extracted columns into the `hCols` set, reporting whether any
was missing (which is what flips `heterogeneous` in `sliceInsert`).  The
Go set is a map; insertion order is kept here, which is observationally
equivalent since `hCols` is only ever consulted for membership. -/
def addHCols (hCols : List String) : List String → List String × Bool
  | [] => (hCols, false)
  | c :: rest =>
    if hCols.contains c then addHCols hCols rest
    else ((addHCols (hCols ++ [c]) rest).1, true)

/-- Loop state of `Mapper.sliceInsert`. -/
structure SliceState where
  hCols : List String
  het : Bool
  qq : InsertBuilder

/-- The loop of `Mapper.sliceInsert`: element 0 seeds `hCols` and the
column list; later elements flip `heterogeneous` when they carry a column
not seen before; rows are accumulated only while not heterogeneous. -/
def sliceInsertGo (sm : Option Mapper) (o : Options) :
    List Rec → Bool → SliceState → SliceState
  | [], _, st => st
  | item :: rest, first, st =>
    let cv := Mapper.columnsValues sm item o
    let st1 :=
      if first then
        { st with
          hCols := cv.1.foldl (fun h c => if h.contains c then h else h ++ [c]) st.hCols
          qq := st.qq.Columns cv.1 }
      else
        let hn := addHCols st.hCols cv.1
        { st with hCols := hn.1, het := st.het || hn.2 }
    let st2 := if !st1.het then { st1 with qq := st1.qq.Values cv.2 } else st1
    sliceInsertGo sm o rest false st2

/-- The loop of `Mapper.heterogeneousInsert`: element 0's regenerated
column list is emitted once, every element's regenerated row is appended. -/
def hetInsertGo (sm : Option Mapper) (oh : Options) :
    List Rec → Bool → InsertBuilder → InsertBuilder
  | [], _, q => q
  | item :: rest, first, q =>
    let cv := Mapper.columnsValues sm item oh
    let q1 := if first then q.Columns cv.1 else q
    hetInsertGo sm oh rest false (q1.Values cv.2)

/-- `Mapper.heterogeneousInsert`: every row is regenerated with
`SkipZeroValues` forced off, `IgnoreOmitEmpty` forced on and the column
allow-list pinned to the observed union. -/
def Mapper.heterogeneousInsert (sm : Option Mapper) (q : InsertBuilder)
    (v : List Rec) (hCols : List String) (o : Options) : InsertBuilder :=
  let oh := { o with SkipZeroValues := false, IgnoreOmitEmpty := true, Columns := hCols }
  hetInsertGo sm oh v true q

/-- `Mapper.sliceInsert`. -/
def Mapper.sliceInsert (sm : Option Mapper) (q : InsertBuilder)
    (v : List Rec) (o : Options) : InsertBuilder :=
  let st := sliceInsertGo sm o v true ⟨[], false, q⟩
  if st.het then Mapper.heterogeneousInsert sm q v st.hCols o else st.qq

/-- The value argument of `Mapper.Insert`: nil, a struct, or a slice of
structs (all of one type, as in Go). -/
inductive InsertVal where
  | nilVal : InsertVal
  | struct : Rec → InsertVal
  | slice : List Rec → InsertVal

/-- Reading `sm.Dialect`: on a nil `*Mapper` this is a nil-pointer
dereference (a runtime panic), since `Mapper.Insert` reads the field
directly without the `typeMap`-style fallback. -/
def Mapper.dialectField : Option Mapper → Except String Sqluct.Dialect
  | none => .error "runtime error: invalid memory address or nil pointer dereference"
  | some m => .ok m.Dialect

/-- `Mapper.Insert`: nil is a no-op; a slice is dispatched to
`sliceInsert` (returning before the `InsertIgnore` block); a struct emits
its columns and row and then, when `InsertIgnore` is requested, applies
the dialect-specific conflict policy or panics (modelled as `.error`) for
the unknown or an unrecognized dialect. -/
def Mapper.Insert (sm : Option Mapper) (q : InsertBuilder) (val : InsertVal)
    (o : Options) : Except String InsertBuilder :=
  match val with
  | .nilVal => .ok q
  | .slice l => .ok (Mapper.sliceInsert sm q l o)
  | .struct v =>
    let cv := Mapper.columnsValues sm v o
    let q1 := (q.Columns cv.1).Values cv.2
    if o.InsertIgnore then
      match Mapper.dialectField sm with
      | .error e => .error e
      | .ok .mysql => .ok (q1.Options "IGNORE")
      | .ok .sqlite3 => .ok (q1.Options "OR IGNORE")
      | .ok .postgres => .ok (q1.Suffix "ON CONFLICT DO NOTHING")
      | .ok .unknown => .error "can not apply INSERT IGNORE for unknown dialect"
      | .ok (.other s) => .error ("can not apply INSERT IGNORE for dialect " ++ s)
    else .ok q1

/-- State of a `squirrel.UpdateBuilder` as far as the mapper drives it. -/
structure UpdateBuilder where
  sets : List (String × Val) := []

/-- `q.Set(col, val)`. -/
def UpdateBuilder.Set (q : UpdateBuilder) (col : String) (val : Val) : UpdateBuilder :=
  { q with sets := q.sets ++ [(col, val)] }

/-- `Mapper.Update`: nil is a no-op; otherwise each extracted
(column, value) pair becomes one `Set` call.  (`vals[i]` indexing is
faithful to `zip` because extraction on a struct appends in lockstep.) -/
def Mapper.Update (sm : Option Mapper) (q : UpdateBuilder) (val : Option Rec)
    (o : Options) : UpdateBuilder :=
  match val with
  | none => q
  | some v =>
    let cv := Mapper.columnsValues sm v o
    (cv.1.zip cv.2).foldl (fun q p => q.Set p.1 p.2) q

/-- State of a `squirrel.SelectBuilder` as far as the mapper drives it. -/
structure SelectBuilder where
  cols : List String := []

/-- The columns argument of `Mapper.Select`: nil, a struct value, or a
slice (used purely as a type template). -/
inductive ColsArg where
  | nilVal : ColsArg
  | struct : Rec → ColsArg
  | slice : List RawField → ColsArg

/-- `Mapper.Select`: forces `IgnoreOmitEmpty` on, then appends the
extracted column names. -/
def Mapper.Select (sm : Option Mapper) (q : SelectBuilder) (columns : ColsArg)
    (o : Options) : SelectBuilder :=
  match columns with
  | .nilVal => q
  | .struct v =>
    let o1 := { o with IgnoreOmitEmpty := true }
    { q with cols := q.cols ++ (Mapper.columnsValues sm v o1).1 }
  | .slice t =>
    let o1 := { o with IgnoreOmitEmpty := true }
    { q with cols := q.cols ++ Mapper.columnsOnly sm t o1 }

/-- Updating a Go map entry (`eq[column] = value`): overwrite when the
key is present, append otherwise. -/
def insertEq (eq : List (String × Val)) (k : String) (v : Val) : List (String × Val) :=
  if eq.any (fun p => p.1 = k) then
    eq.map (fun p => if p.1 = k then (k, v) else p)
  else eq ++ [(k, v)]

/-- `Mapper.WhereEq`: builds the `squirrel.Eq` map from the extracted
pairs and returns nil (`none`) when it is empty. -/
def Mapper.WhereEq (sm : Option Mapper) (conditions : Rec) (o : Options) :
    Option (List (String × Val)) :=
  let cv := Mapper.columnsValues sm conditions o
  let eq := (cv.1.zip cv.2).foldl (fun m p => insertEq m p.1 p.2) []
  if eq.isEmpty then none else some eq

/-- The error text of `errUnknownFieldOrRow`. -/
def errUnknownFieldOrRow : String := "unknown field or row or not a pointer"

/-- A live struct instance for pointer-based operations: each field entry
carries its address (a `Nat` identity token) and raw metadata.  The
nil-argument and non-addressable failure paths of the source are outside
this model: inputs stand for live addressable instances. -/
abbrev PtrRec := List (Nat × RawField)

/-- `Mapper.typeMap` over a live instance, keeping field addresses. -/
def Mapper.typeMapPtrs (sm : Option Mapper) (v : PtrRec) : List (Nat × FieldInfo) :=
  let smr := mapper sm
  ((v.map (fun pf => (pf.1, Mapper.reflectMapperOf (some smr) pf.2))).filter
    (fun pf => !pf.2.parentNamed))

/-- `Mapper.FindColumnName`: scans the type index for the field whose
address equals `fieldPtr`. -/
def Mapper.FindColumnName (sm : Option Mapper) (v : PtrRec) (fieldPtr : Nat) :
    Except String String :=
  match (Mapper.typeMapPtrs sm v).find? (fun pf => pf.1 == fieldPtr) with
  | some pf => .ok pf.2.Name
  | none => .error errUnknownFieldOrRow

/-- `Mapper.FindColumnNames` (with the nil `filter` of the exported
entry point): maps each non-embedded indexed field's address to its
column name. -/
def Mapper.FindColumnNames (sm : Option Mapper) (v : PtrRec) : List (Nat × String) :=
  (Mapper.typeMapPtrs sm v).filterMap
    (fun pf => if pf.2.embedded then none else some (pf.1, pf.2.Name))

/-- `Mapper.Col`: `FindColumnName`, panicking (here `.error`) on failure. -/
def Mapper.Col (sm : Option Mapper) (v : PtrRec) (fieldPtr : Nat) :
    Except String String :=
  Mapper.FindColumnName sm v fieldPtr

/-! ## Identifier quoting -/

/-- Doubling a quote character inside an identifier
(`strings.ReplaceAll(item, q, qq)` for a one-character pattern). -/
def escapeChar (qc : Char) : List Char → List Char
  | [] => []
  | c :: rest =>
    if c = qc then qc :: qc :: escapeChar qc rest else c :: escapeChar qc rest

/-- Joining identifier parts with `.` (the separator each quoting
function writes before every non-first part). -/
def joinDot : List String → String
  | [] => ""
  | [s] => s
  | s :: rest => s ++ "." ++ joinDot rest

/-- The backtick character. -/
def backtickChar : Char := Char.ofNat 96

/-- Wrapping one part in a quote character, doubling embedded quotes. -/
def quoteWith (qc : Char) (item : String) : String :=
  ⟨qc :: (escapeChar qc item.data ++ [qc])⟩

/-- `QuoteNoop`. -/
def QuoteNoop (parts : List String) : String := joinDot parts

/-- `QuoteANSI`. -/
def QuoteANSI (parts : List String) : String :=
  joinDot (parts.map (quoteWith '"'))

/-- `QuoteBackticks`. -/
def QuoteBackticks (parts : List String) : String :=
  joinDot (parts.map (quoteWith backtickChar))

/-- The rune scan of `QuoteRequiredBackticks`, threading the
`(needsQuote, onlyDigits)` pair exactly as the Go loop does: digits touch
nothing; any non-digit clears `onlyDigits`; ASCII letters, `$`, `_` and
runes in `U+0080..U+FFFF` are otherwise accepted; anything else sets
`needsQuote`. -/
def quoteReqScan : List Char → Bool × Bool → Bool × Bool
  | [], st => st
  | r :: rest, st =>
    if '0' ≤ r ∧ r ≤ '9' then quoteReqScan rest st
    else
      let st1 := (st.1, false)
      if ('a' ≤ r ∧ r ≤ 'z') ∨ ('A' ≤ r ∧ r ≤ 'Z') ∨ r = '$' ∨ r = '_' then
        quoteReqScan rest st1
      else if 0x0080 ≤ r.toNat ∧ r.toNat ≤ 0xFFFF then quoteReqScan rest st1
      else quoteReqScan rest (true, st1.2)

/-- One part of `QuoteRequiredBackticks`: emitted raw when the scan found
no quote-requiring rune and the part is not all digits, wrapped in
backticks (with doubling) otherwise. -/
def quoteRequiredPart (item : String) : String :=
  let st := quoteReqScan item.data (false, true)
  if !st.1 && !st.2 then item else quoteWith backtickChar item

/-- `QuoteRequiredBackticks`. -/
def QuoteRequiredBackticks (parts : List String) : String :=
  joinDot (parts.map quoteRequiredPart)

/-! ## Referencer -/

/-- Association lookup keyed by pointer identity (`map[interface{}]`). -/
def lookupPtr (m : List (Nat × α)) (k : Nat) : Option α :=
  (m.find? (fun p => p.1 == k)).map (fun p => p.2)

/-- Association update keyed by pointer identity: Go map assignment
overwrites an existing binding and inserts otherwise.  The registries are
only ever read through `lookupPtr` (first match wins), so prepending the
new binding is observationally identical to overwrite-or-append. -/
def insertPtr (m : List (Nat × α)) (k : Nat) (v : α) : List (Nat × α) :=
  (k, v) :: m

/-- Insertion sort on strings (`sort.Strings`). -/
def insertSorted (s : String) : List String → List String
  | [] => [s]
  | t :: rest => if s ≤ t then s :: t :: rest else t :: insertSorted s rest

/-- Sorting a string list (`sort.Strings`). -/
def sortStrings : List String → List String
  | [] => []
  | s :: rest => insertSorted s (sortStrings rest)

/-- `Referencer`: pointer-identity registries resolving record and field
pointers to quoted reference strings.  Pointer identity is a `Nat`
token; `Quoted` values are plain strings carried by `RefArg.quoted`. -/
structure Referencer where
  Mapper : Option Sqluct.Mapper := none
  IdentifierQuoter : Option (List String → String) := none
  refs : List (Nat × String) := []
  quotedCols : List (Nat × String) := []
  columnNames : List (Nat × String) := []
  structRefs : List (Nat × List String) := []

/-- `Referencer.Q`: the configured identifier quoter, `QuoteNoop` by
default. -/
def Referencer.Q (r : Referencer) (parts : List String) : String :=
  match r.IdentifierQuoter with
  | none => QuoteNoop parts
  | some f => f parts

/-- The loop body of `AddTableAlias` over one `(fieldPtr, fieldName)`
entry of `FindColumnNames`: inserts the qualified reference, the
unqualified quoted column and the plain column name, and collects the
reference string.  `r` is the receiver (its quoter is read, its
registries accumulate through `acc`). -/
def addAliasStep (r : Referencer) (als : String) (acc : Referencer × List String)
    (pf : Nat × String) : Referencer × List String :=
  let ref := if als = "" then r.Q [pf.2] else r.Q [als, pf.2]
  ({ acc.1 with
      refs := insertPtr acc.1.refs pf.1 ref
      quotedCols := insertPtr acc.1.quotedCols pf.1 (r.Q [pf.2])
      columnNames := insertPtr acc.1.columnNames pf.1 pf.2 },
    acc.2 ++ [ref])

/-- `Referencer.AddTableAlias` for a live instance (`rowPtr` with its
addressed fields): registers the row pointer under the quoted alias when
the alias is non-empty, then one qualified reference, one unqualified
quoted column and one plain column name per field pointer, and finally
the sorted reference list under the row pointer.  (Go iterates the
`FindColumnNames` map in unspecified order; insertions hit distinct keys,
so the resulting registries are order-independent.) -/
def Referencer.AddTableAlias (r : Referencer) (rowPtr : Nat) (inst : PtrRec)
    (als : String) : Referencer :=
  let f := Mapper.FindColumnNames r.Mapper inst
  let r1 :=
    if als ≠ "" then { r with refs := insertPtr r.refs rowPtr (r.Q [als]) } else r
  let res := f.foldl (addAliasStep r als) (r1, [])
  { res.1 with structRefs := insertPtr res.1.structRefs rowPtr (sortStrings res.2) }

/-- An argument of `Ref`/`Refs`/`Fmt`: a `Quoted` string, a `NoTable`
wrapper around a field pointer, or any other value identified by pointer
identity (registered pointers as well as raw literals, which are simply
never registered). -/
inductive RefArg where
  | quoted : String → RefArg
  | noTable : Nat → RefArg
  | ptr : Nat → RefArg

/-- `Referencer.ref`: a `Quoted` argument is returned as its own
content; a `NoTable` wrapper redirects the lookup to the unqualified
quoted-column registry; anything else is looked up in the qualified
registry and fails with `errUnknownFieldOrRow` when absent. -/
def Referencer.ref (r : Referencer) (a : RefArg) : Except String String :=
  match a with
  | .quoted s => .ok s
  | .noTable p =>
    match lookupPtr r.quotedCols p with
    | some s => .ok s
    | none => .error errUnknownFieldOrRow
  | .ptr p =>
    match lookupPtr r.refs p with
    | some s => .ok s
    | none => .error errUnknownFieldOrRow

/-- `Referencer.Ref`: `ref`, panicking (modelled as `.error`) on an
unknown pointer. -/
def Referencer.Ref (r : Referencer) (a : RefArg) : Except String String :=
  r.ref a

/-- The shared resolution loop of `Referencer.Refs` and
`Referencer.Fmt`: arguments are resolved left to right, the first
failure panics with the position appended
(`fmt.Errorf("%w at position %d", err, i)`). -/
def Referencer.resolveAll (r : Referencer) : List RefArg → Nat → Except String (List String)
  | [], _ => .ok []
  | a :: rest, i =>
    match r.ref a with
    | .error e => .error (e ++ " at position " ++ toString i)
    | .ok s =>
      match Referencer.resolveAll r rest (i + 1) with
      | .error e => .error e
      | .ok ss => .ok (s :: ss)

/-- `Referencer.Refs`. -/
def Referencer.Refs (r : Referencer) (ptrs : List RefArg) : Except String (List String) :=
  Referencer.resolveAll r ptrs 0

/-- `fmt.Sprintf` restricted to what `Fmt` feeds it: `%s` consumes the
next (string) argument, `%%` is a literal percent, everything else is
copied; a missing argument renders Go's `%!s(MISSING)`.  (Go's trailing
`%!(EXTRA ...)` rendering for unused arguments is not modelled.) -/
def sprintfChars : List Char → List String → List Char
  | [], _ => []
  | '%' :: 's' :: rest, a :: args => a.data ++ sprintfChars rest args
  | '%' :: 's' :: rest, [] => "%!s(MISSING)".data ++ sprintfChars rest []
  | '%' :: '%' :: rest, args => '%' :: sprintfChars rest args
  | c :: rest, args => c :: sprintfChars rest args

/-- `fmt.Sprintf` on strings. -/
def sprintfS (format : String) (args : List String) : String :=
  ⟨sprintfChars format.data args⟩

/-- `Referencer.Fmt`: resolves every argument through the same loop as
`Refs` (panicking with the failing position) and formats the template
with the resolved strings. -/
def Referencer.Fmt (r : Referencer) (format : String) (ptrs : List RefArg) :
    Except String String :=
  match Referencer.resolveAll r ptrs 0 with
  | .error e => .error e
  | .ok args => .ok (sprintfS format args)

/-- `Referencer.Col`: the unescaped column name of a registered field
pointer. -/
def Referencer.Col (r : Referencer) (p : Nat) : Except String String :=
  match lookupPtr r.columnNames p with
  | some c => .ok c
  | none => .error errUnknownFieldOrRow

/-- `Referencer.Cols`: the sorted reference list of a registered row
pointer. -/
def Referencer.Cols (r : Referencer) (p : Nat) : Except String (List String) :=
  match lookupPtr r.structRefs p with
  | some cs => .ok cs
  | none => .error errUnknownFieldOrRow

/-! ## Transaction wrapper (storage.go) -/

/-- A transaction handle. -/
abbrev Tx := Nat

/-- Errors as `ctxd` produces them: a base error, `ctxd.WrapError(ctx,
err, msg)` (`wrap msg err`, whose unwrap chain continues into `err`), and
`ctxd.WrapError(ctx, err, msg, "error", detail)` (`wrapDetail msg err
detail`: the unwrap chain continues into `err` while `detail` is only a
structured logging field). -/
inductive Err where
  | base : String → Err
  | wrap : String → Err → Err
  | wrapDetail : String → Err → Err → Err
  deriving DecidableEq

/-- `errors.Is`: reflexive traversal of the unwrap chain; structured
detail fields are not part of the chain. -/
def Err.errIs : Err → Err → Bool
  | e, target =>
    e == target ||
      match e with
      | .base _ => false
      | .wrap _ inner => inner.errIs target
      | .wrapDetail _ inner _ => inner.errIs target

/-- Observable database effects of `InTx`. -/
inductive Action where
  | beginTx : Action
  | commit : Action
  | rollback : Action
  deriving DecidableEq

/-- Outcomes the underlying database would produce. -/
structure DBModel where
  beginRes : Except Err Tx
  commitRes : Tx → Option Err
  rollbackRes : Tx → Option Err

/-- `Storage.submitTx`: no transaction in context is an internal error;
on a callback error rollback is attempted once — a rollback failure is
returned wrapped as "failed to rollback" with the original error embedded
as the `error` detail field, otherwise the original error is returned;
on success commit is attempted and a failure returned wrapped.  The
`s.error` observation hook never alters the returned error and is not
modelled. -/
def submitTx (db : DBModel) (ctxTx : Option Tx) (err : Option Err) :
    Option Err × List Action :=
  match ctxTx with
  | none => (some (.base "no running transaction"), [])
  | some tx =>
    match err with
    | some e =>
      match db.rollbackRes tx with
      | some rbErr => (some (.wrapDetail "failed to rollback" rbErr e), [.rollback])
      | none => (some e, [.rollback])
    | none =>
      match db.commitRes tx with
      | some cErr => (some (.wrap "failed to commit" cErr), [.commit])
      | none => (none, [.commit])

/-- `Storage.InTx`: with a transaction already in context the callback
runs against that context and its error is returned unchanged (`finish`
is the identity — the non-beginner never finalizes); with no transaction
one is begun (a failure is returned wrapped as "failed to begin tx"),
the callback runs with the transaction attached and `submitTx`
finalizes.  The second component records the database effects
performed. -/
def InTx (db : DBModel) (ctxTx : Option Tx) (fn : Option Tx → Option Err) :
    Option Err × List Action :=
  match ctxTx with
  | some _ => (fn ctxTx, [])
  | none =>
    match db.beginRes with
    | .error e => (some (.wrap "failed to begin tx" e), [.beginTx])
    | .ok tx =>
      let ferr := fn (some tx)
      let fin := submitTx db (some tx) ferr
      (fin.1, .beginTx :: fin.2)

/-! ## Spec-side definitions and concrete inputs used by the claims -/

/-- The fields a struct-value extraction considers after type mapping and
the skip test (embedded / untagged / allow-list), before any zero-value
policy. -/
def keptFields (sm : Option Mapper) (o : Options) (v : Rec) : List (FieldInfo × Val) :=
  (Mapper.typeMapVals sm v).filter (fun fv => !Mapper.skip fv.1 o.Columns)

/-- The zero-omission test active for a field under given options:
`SkipZeroValues` unconditionally, or the field's `omitempty` opt-in
unless deactivated by `IgnoreOmitEmpty`. -/
def omissionActive (o : Options) (fv : FieldInfo × Val) : Bool :=
  (o.SkipZeroValues || (fv.1.omitempty && !o.IgnoreOmitEmpty)) && isZero fv.2

/-- The record `{ID:123 (opt-in), Name:"" (opt-in), Price:0 (no opt-in)}`
of the spec's concrete zero-omission case. -/
def recC4 : Rec :=
  [({ goName := "ID", tag := "ID,omitempty" }, .vInt 123),
   ({ goName := "Name", tag := "Name,omitempty" }, .vStr ""),
   ({ goName := "Price", tag := "Price" }, .vInt 0)]

/-- Element 0 of the shrinking-batch slice: both fields non-zero. -/
def recShrinkA : Rec :=
  [({ goName := "X", tag := "x" }, .vInt 1),
   ({ goName := "Y", tag := "y,omitempty" }, .vInt 2)]

/-- Element 1 of the shrinking-batch slice: the opt-in field `y` holds
its zero value and is omitted, so its column set is a strict subset of
element 0's. -/
def recShrinkB : Rec :=
  [({ goName := "X", tag := "x" }, .vInt 3),
   ({ goName := "Y", tag := "y,omitempty" }, .vInt 0)]

/-- The repo's `Sample` struct with non-zero values (test vector): field
`A` (tag `a,omitempty`), the embedded `DeeplyEmbedded`/`SampleEmbedded`
promotions (untagged, embedded), the named column `Meta` (tag `meta`,
whose own fields carry the named-parent flag), and the promoted leaves
`E`, `B`, `C`, in the order the reflect index produces.  Float and
struct values are opaque to the mapper and stand in as strings. -/
def recSample : Rec :=
  [({ goName := "A", tag := "a,omitempty" }, .vInt 1),
   ({ goName := "DeeplyEmbedded", tag := "", embedded := true }, .vStr "embedded"),
   ({ goName := "Meta", tag := "meta" }, .vStr "AnotherRowValue"),
   ({ goName := "SampleEmbedded", tag := "", embedded := true }, .vStr "embedded"),
   ({ goName := "E", tag := "e,omitempty" }, .vStr "e!"),
   ({ goName := "B", tag := "b" }, .vStr "2.2"),
   ({ goName := "C", tag := "c" }, .vStr "3"),
   ({ goName := "B", tag := "b", parentNamed := true }, .vStr "0"),
   ({ goName := "C", tag := "c", parentNamed := true }, .vStr ""),
   ({ goName := "D", tag := "d", parentNamed := true }, .vStr "")]

/-- The repo's `Sample` struct as a zero value (test vector). -/
def recSampleZero : Rec :=
  [({ goName := "A", tag := "a,omitempty" }, .vInt 0),
   ({ goName := "DeeplyEmbedded", tag := "", embedded := true }, .vStr "embedded"),
   ({ goName := "Meta", tag := "meta" }, .vStr "AnotherRowZero"),
   ({ goName := "SampleEmbedded", tag := "", embedded := true }, .vStr "embedded"),
   ({ goName := "E", tag := "e,omitempty" }, .vStr ""),
   ({ goName := "B", tag := "b" }, .vInt 0),
   ({ goName := "C", tag := "c" }, .vStr ""),
   ({ goName := "B", tag := "b", parentNamed := true }, .vInt 0),
   ({ goName := "C", tag := "c", parentNamed := true }, .vStr ""),
   ({ goName := "D", tag := "d", parentNamed := true }, .vStr "")]

/-- A character safe in an unquoted MySQL identifier, as the spec words
it: ASCII digits and letters, `$`, `_`, or the extended Unicode letter
range `U+0080..U+FFFF`. -/
def mysqlPlainChar (c : Char) : Bool :=
  ('0' ≤ c && c ≤ '9') || ('a' ≤ c && c ≤ 'z') || ('A' ≤ c && c ≤ 'Z') ||
    c = '$' || c = '_' || (0x0080 ≤ c.toNat && c.toNat ≤ 0xFFFF)

/-- An ASCII digit. -/
def isDigitCh (c : Char) : Bool := '0' ≤ c && c ≤ '9'

/-- One part of conditional backtick quoting as the spec words it:
unquoted iff every character is plain and the part is not composed
entirely of digits, backtick-wrapped with doubling otherwise. -/
def specQuotePart (item : String) : String :=
  if item.data.all mysqlPlainChar && !item.data.all isDigitCh then item
  else quoteWith backtickChar item

/-- Conditional backtick quoting as the spec words it. -/
def QuoteRequiredBackticksSpec (parts : List String) : String :=
  joinDot (parts.map specQuotePart)

end Sqluct

namespace Sqluct

/-- `mysqlPlainChar` as a proposition. -/
theorem mysqlPlainChar_iff (c : Char) : mysqlPlainChar c = true ↔
    (('0' ≤ c ∧ c ≤ '9') ∨ ('a' ≤ c ∧ c ≤ 'z') ∨ ('A' ≤ c ∧ c ≤ 'Z') ∨
      c = '$' ∨ c = '_' ∨ (0x0080 ≤ c.toNat ∧ c.toNat ≤ 0xFFFF)) := by
  simp [mysqlPlainChar, Bool.or_eq_true, Bool.and_eq_true, decide_eq_true_eq,
    or_assoc, and_assoc]

/-- `isDigitCh` as a proposition. -/
theorem isDigitCh_iff (c : Char) : isDigitCh c = true ↔ ('0' ≤ c ∧ c ≤ '9') := by
  simp [isDigitCh, Bool.and_eq_true, decide_eq_true_eq]

/-- The rune scan of `QuoteRequiredBackticks` computes "some rune
requires quoting" and "every rune is a digit", folded onto the starting
accumulator. -/
theorem quoteReqScan_eq (l : List Char) (nq od : Bool) :
    quoteReqScan l (nq, od) = (nq || !l.all mysqlPlainChar, od && l.all isDigitCh) := by
  induction l generalizing nq od with
  | nil => simp [quoteReqScan]
  | cons r rest ih =>
    simp only [quoteReqScan]
    by_cases h1 : '0' ≤ r ∧ r ≤ '9'
    · have hp : mysqlPlainChar r = true := (mysqlPlainChar_iff r).mpr (Or.inl h1)
      have hd : isDigitCh r = true := (isDigitCh_iff r).mpr h1
      rw [if_pos h1, ih]
      simp [hp, hd]
    · have hd : isDigitCh r = false := by
        rw [Bool.eq_false_iff]
        intro hc
        exact h1 ((isDigitCh_iff r).mp hc)
      rw [if_neg h1]
      by_cases h2 : ('a' ≤ r ∧ r ≤ 'z') ∨ ('A' ≤ r ∧ r ≤ 'Z') ∨ r = '$' ∨ r = '_'
      · have hp : mysqlPlainChar r = true := by
          rw [mysqlPlainChar_iff]
          rcases h2 with h | h | h | h
          · exact Or.inr (Or.inl h)
          · exact Or.inr (Or.inr (Or.inl h))
          · exact Or.inr (Or.inr (Or.inr (Or.inl h)))
          · exact Or.inr (Or.inr (Or.inr (Or.inr (Or.inl h))))
        rw [if_pos h2, ih]
        simp [hp, hd]
      · rw [if_neg h2]
        by_cases h3 : 0x0080 ≤ r.toNat ∧ r.toNat ≤ 0xFFFF
        · have hp : mysqlPlainChar r = true := (mysqlPlainChar_iff r).mpr
            (Or.inr (Or.inr (Or.inr (Or.inr (Or.inr h3)))))
          rw [if_pos h3, ih]
          simp [hp, hd]
        · have hp : mysqlPlainChar r = false := by
            rw [Bool.eq_false_iff]
            intro hc
            rcases (mysqlPlainChar_iff r).mp hc with h | h | h | h | h | h
            · exact h1 h
            · exact h2 (Or.inl h)
            · exact h2 (Or.inr (Or.inl h))
            · exact h2 (Or.inr (Or.inr (Or.inl h)))
            · exact h2 (Or.inr (Or.inr (Or.inr h)))
            · exact h3 h
          rw [if_neg h3, ih]
          simp [hp, hd]

/-- One part of `QuoteRequiredBackticks` matches the spec's wording. -/
theorem quoteRequiredPart_spec (item : String) :
    quoteRequiredPart item = specQuotePart item := by
  unfold quoteRequiredPart specQuotePart
  rw [quoteReqScan_eq]
  simp

/-- **C8**: `QuoteRequiredBackticks` leaves a part unquoted iff it
consists solely of ASCII letters, digits, `$`, `_` or
`U+0080..U+FFFF` characters and is not composed entirely of digits; any
other part (including all-digit parts) is backtick-wrapped with embedded
backticks doubled; parts are joined with `.`. -/
theorem quoteRequiredBackticks_matches_spec (parts : List String) :
    QuoteRequiredBackticks parts = QuoteRequiredBackticksSpec parts := by
  unfold QuoteRequiredBackticks QuoteRequiredBackticksSpec
  rw [funext quoteRequiredPart_spec]

/-- The extraction loop keeps exactly the non-skipped fields whose
active omission test fails, emitting names and values in lockstep. -/
theorem columnsValuesLoop_eq_filter (o : Options) (l : List (FieldInfo × Val)) :
    columnsValuesLoop o l =
      (((l.filter (fun fv => !Mapper.skip fv.1 o.Columns)).filter
          (fun fv => !omissionActive o fv)).map (fun fv => prepCol o fv.1.Name),
       ((l.filter (fun fv => !Mapper.skip fv.1 o.Columns)).filter
          (fun fv => !omissionActive o fv)).map (fun fv => fv.2)) := by
  induction l with
  | nil => rfl
  | cons fv rest ih =>
    obtain ⟨fi, val⟩ := fv
    have hcond : ((o.SkipZeroValues || (fi.omitempty && !o.IgnoreOmitEmpty)) && isZero val)
        = omissionActive o (fi, val) := rfl
    simp only [columnsValuesLoop, ih, List.filter_cons, hcond]
    by_cases hs : Mapper.skip fi o.Columns
    · simp [hs]
    · by_cases hz : omissionActive o (fi, val)
      · simp [hs, hz]
      · simp [hs, hz]

/-- `Mapper.columnsValues` on a struct keeps exactly the non-skipped
fields whose active omission test fails. -/
theorem columnsValues_eq_filter (sm : Option Mapper) (v : Rec) (o : Options) :
    Mapper.columnsValues sm v o =
      (((keptFields sm o v).filter (fun fv => !omissionActive o fv)).map
          (fun fv => prepCol o fv.1.Name),
       ((keptFields sm o v).filter (fun fv => !omissionActive o fv)).map
          (fun fv => fv.2)) :=
  columnsValuesLoop_eq_filter o (Mapper.typeMapVals sm v)

/-- Extraction on a struct emits columns and values of equal length. -/
theorem columnsValues_length (sm : Option Mapper) (v : Rec) (o : Options) :
    (Mapper.columnsValues sm v o).1.length = (Mapper.columnsValues sm v o).2.length := by
  rw [columnsValues_eq_filter]
  simp

/-- **C4**: zero-omission policies of the mapper's extraction.
Concretely, for `{ID:123 (opt-in), Name:"" (opt-in), Price:0 (no
opt-in)}`, default options yield `([ID, Price], [123, 0])`,
`IgnoreOmitEmpty` yields `([ID, Name, Price], [123, "", 0])` and
`SkipZeroValues` yields `([ID], [123])`.  In general, with
`IgnoreOmitEmpty` on and `SkipZeroValues` off every non-skipped field is
emitted regardless of zero values (explicit ignore wins over the
per-field opt-in), and with `SkipZeroValues` on exactly the non-skipped
fields with non-zero values are emitted, regardless of per-field tags. -/
theorem mapper_zero_omission_policies :
    (Mapper.columnsValues none recC4 {} = (["ID", "Price"], [.vInt 123, .vInt 0]) ∧
     Mapper.columnsValues none recC4 { IgnoreOmitEmpty := true } =
       (["ID", "Name", "Price"], [.vInt 123, .vStr "", .vInt 0]) ∧
     Mapper.columnsValues none recC4 { SkipZeroValues := true } =
       (["ID"], [.vInt 123])) ∧
    (∀ (sm : Option Mapper) (o : Options), o.IgnoreOmitEmpty = true →
      o.SkipZeroValues = false → ∀ v : Rec,
      Mapper.columnsValues sm v o =
        ((keptFields sm o v).map (fun fv => prepCol o fv.1.Name),
         (keptFields sm o v).map (fun fv => fv.2))) ∧
    (∀ (sm : Option Mapper) (o : Options), o.SkipZeroValues = true → ∀ v : Rec,
      Mapper.columnsValues sm v o =
        (((keptFields sm o v).filter (fun fv => !isZero fv.2)).map
            (fun fv => prepCol o fv.1.Name),
         ((keptFields sm o v).filter (fun fv => !isZero fv.2)).map
            (fun fv => fv.2))) := by
  refine ⟨⟨rfl, rfl, rfl⟩, ?_, ?_⟩
  · intro sm o h1 h2 v
    rw [columnsValues_eq_filter]
    simp [omissionActive, h1, h2]
  · intro sm o h v
    rw [columnsValues_eq_filter]
    simp [omissionActive, h]

/-- `insertEq` appends when the key is absent from the map. -/
theorem insertEq_notMem (m : List (String × Val)) (k : String) (v : Val)
    (h : ∀ q ∈ m, q.1 ≠ k) : insertEq m k v = m ++ [(k, v)] := by
  have hc : (m.any (fun p => p.1 = k)) = false := by
    rw [List.any_eq_false]
    intro q hq
    simpa using h q hq
  simp [insertEq, hc]

/-- Folding `insertEq` over pairs with fresh, pairwise distinct keys
appends them all in order. -/
theorem foldl_insertEq (pairs acc : List (String × Val))
    (hnd : (pairs.map Prod.fst).Nodup)
    (hdisj : ∀ p ∈ pairs, ∀ q ∈ acc, q.1 ≠ p.1) :
    pairs.foldl (fun m p => insertEq m p.1 p.2) acc = acc ++ pairs := by
  induction pairs generalizing acc with
  | nil => simp
  | cons p rest ih =>
    rw [List.foldl_cons,
      insertEq_notMem acc p.1 p.2 (fun q hq => hdisj p (List.mem_cons_self p rest) q hq)]
    rw [List.map_cons, List.nodup_cons] at hnd
    rw [ih (acc ++ [p]) hnd.2]
    · simp
    · intro p2 hp2 q hq
      rcases List.mem_append.mp hq with hq1 | hq2
      · exact hdisj p2 (List.mem_cons_of_mem p hp2) q hq1
      · rw [List.mem_singleton.mp hq2]
        intro hk
        exact hnd.1 (hk ▸ List.mem_map_of_mem Prod.fst hp2)

/-- **C6**: `Mapper.WhereEq` returns the explicit absent predicate `nil`
(`none`) exactly when extraction yields no pairs; otherwise it returns
the map holding one column-equals-value entry per extracted pair. -/
theorem whereEq_empty_or_pairs (sm : Option Mapper) (v : Rec) (o : Options) :
    ((Mapper.columnsValues sm v o).1 = [] → Mapper.WhereEq sm v o = none) ∧
    ((Mapper.columnsValues sm v o).1 ≠ [] →
      ((Mapper.columnsValues sm v o).1).Nodup →
      Mapper.WhereEq sm v o =
        some ((Mapper.columnsValues sm v o).1.zip (Mapper.columnsValues sm v o).2)) := by
  constructor
  · intro h
    simp [Mapper.WhereEq, h]
  · intro h1 h2
    have hlen := columnsValues_length sm v o
    have hfst : ((Mapper.columnsValues sm v o).1.zip
        (Mapper.columnsValues sm v o).2).map Prod.fst = (Mapper.columnsValues sm v o).1 :=
      List.map_fst_zip _ _ (le_of_eq hlen)
    have hfold := foldl_insertEq
      ((Mapper.columnsValues sm v o).1.zip (Mapper.columnsValues sm v o).2) []
      (by rw [hfst]; exact h2) (by intro p _ q hq; cases hq)
    have hne : ((Mapper.columnsValues sm v o).1.zip
        (Mapper.columnsValues sm v o).2) ≠ [] := by
      intro hz
      apply h1
      have := congrArg (List.map Prod.fst) hz
      rw [hfst] at this
      simpa using this
    simp only [Mapper.WhereEq, hfold, List.nil_append]
    rw [if_neg]
    simpa [List.isEmpty_iff] using hne

/-- Witness for C6: an all-omitted filter yields `none`; the concrete
record under default options yields its two extracted entries. -/
theorem whereEq_empty_or_pairs_witness :
    Mapper.WhereEq none [({ goName := "Name", tag := "Name,omitempty" }, .vStr "")] {} =
      none ∧
    Mapper.WhereEq none recC4 {} =
      some [("ID", .vInt 123), ("Price", .vInt 0)] :=
  ⟨(whereEq_empty_or_pairs none
      [({ goName := "Name", tag := "Name,omitempty" }, .vStr "")] {}).1 rfl,
   ((whereEq_empty_or_pairs none recC4 {}).2 (by decide) (by decide)).trans rfl⟩

/-- **C7**: with `InsertIgnore` requested, `Mapper.Insert` applies the
MySQL inline `IGNORE` modifier, the SQLite3 inline `OR IGNORE` modifier,
or the Postgres `ON CONFLICT DO NOTHING` suffix after column/value
generation, and panics for the unknown or an unrecognized dialect. -/
theorem insert_ignore_dialects (m : Mapper) (q : InsertBuilder) (v : Rec)
    (o : Options) (hi : o.InsertIgnore = true) :
    (m.Dialect = .mysql → Mapper.Insert (some m) q (.struct v) o =
      .ok (((q.Columns (Mapper.columnsValues (some m) v o).1).Values
        (Mapper.columnsValues (some m) v o).2).Options "IGNORE")) ∧
    (m.Dialect = .sqlite3 → Mapper.Insert (some m) q (.struct v) o =
      .ok (((q.Columns (Mapper.columnsValues (some m) v o).1).Values
        (Mapper.columnsValues (some m) v o).2).Options "OR IGNORE")) ∧
    (m.Dialect = .postgres → Mapper.Insert (some m) q (.struct v) o =
      .ok (((q.Columns (Mapper.columnsValues (some m) v o).1).Values
        (Mapper.columnsValues (some m) v o).2).Suffix "ON CONFLICT DO NOTHING")) ∧
    (m.Dialect = .unknown → Mapper.Insert (some m) q (.struct v) o =
      .error "can not apply INSERT IGNORE for unknown dialect") ∧
    (∀ s, m.Dialect = .other s → Mapper.Insert (some m) q (.struct v) o =
      .error ("can not apply INSERT IGNORE for dialect " ++ s)) := by
  refine ⟨fun hd => ?_, fun hd => ?_, fun hd => ?_, fun hd => ?_, fun s hd => ?_⟩ <;>
    simp [Mapper.Insert, hi, Mapper.dialectField, hd]

/-- Witness for C7: the five dialect behaviors at concrete mappers. -/
theorem insert_ignore_dialects_witness :
    Mapper.Insert (some { Dialect := .mysql }) {} (.struct recC4) { InsertIgnore := true } =
      .ok { columns := ["ID", "Price"], rows := [[.vInt 123, .vInt 0]], opts := ["IGNORE"] } ∧
    Mapper.Insert (some { Dialect := .sqlite3 }) {} (.struct recC4) { InsertIgnore := true } =
      .ok { columns := ["ID", "Price"], rows := [[.vInt 123, .vInt 0]], opts := ["OR IGNORE"] } ∧
    Mapper.Insert (some { Dialect := .postgres }) {} (.struct recC4) { InsertIgnore := true } =
      .ok { columns := ["ID", "Price"], rows := [[.vInt 123, .vInt 0]],
            suffixes := ["ON CONFLICT DO NOTHING"] } ∧
    Mapper.Insert (some { Dialect := .unknown }) {} (.struct recC4) { InsertIgnore := true } =
      .error "can not apply INSERT IGNORE for unknown dialect" ∧
    Mapper.Insert (some { Dialect := .other "oracle" }) {} (.struct recC4)
        { InsertIgnore := true } =
      .error "can not apply INSERT IGNORE for dialect oracle" :=
  ⟨((insert_ignore_dialects { Dialect := .mysql } {} recC4 _ rfl).1 rfl).trans rfl,
   ((insert_ignore_dialects { Dialect := .sqlite3 } {} recC4 _ rfl).2.1 rfl).trans rfl,
   ((insert_ignore_dialects { Dialect := .postgres } {} recC4 _ rfl).2.2.1 rfl).trans rfl,
   ((insert_ignore_dialects { Dialect := .unknown } {} recC4 _ rfl).2.2.2.1 rfl).trans rfl,
   ((insert_ignore_dialects { Dialect := .other "oracle" } {} recC4 _ rfl).2.2.2.2
      "oracle" rfl).trans rfl⟩

/-- **C1**: evaluation of `Mapper.sliceInsert` at the shrinking batch:
element 0 yields columns `[x, y]`, element 1 (whose opt-in field `y` is
zero) yields only `[x]`; no new column appears, so the heterogeneous
promotion never fires and the emitted builder carries the two-column
list with a second row of a single value — the batch is left with rows
of unequal arity instead of being homogenized. -/
theorem sliceInsert_shrinking_batch_not_promoted :
    Mapper.sliceInsert none {} [recShrinkA, recShrinkB] {} =
      { columns := ["x", "y"], rows := [[.vInt 1, .vInt 2], [.vInt 3]] } ∧
    (Mapper.sliceInsert none {} [recShrinkA, recShrinkB] {}).rows.map List.length =
      [2, 1] ∧
    (Mapper.sliceInsert none {} [recShrinkA, recShrinkB] {}).columns.length = 2 :=
  ⟨rfl, rfl, rfl⟩

/-- Validation of the extraction embedding against the repo's own test
vectors for the `Sample` struct (`TestInsertValue`,
`TestInsertValue_omitempty`, `TestInsertValue_IgnoreOmitEmpty`):
embedded promotions and untagged fields are dropped, fields under the
named `Meta` column are excluded, and the emitted column lists are
`(a,meta,e,b,c)`, `(meta,b,c)` and `(a,meta,e,b,c)` respectively. -/
theorem columnsValues_sample_vectors :
    Mapper.columnsValues none recSample {} =
      (["a", "meta", "e", "b", "c"],
       [.vInt 1, .vStr "AnotherRowValue", .vStr "e!", .vStr "2.2", .vStr "3"]) ∧
    Mapper.columnsValues none recSampleZero {} =
      (["meta", "b", "c"], [.vStr "AnotherRowZero", .vInt 0, .vStr ""]) ∧
    Mapper.columnsValues none recSampleZero { IgnoreOmitEmpty := true } =
      (["a", "meta", "e", "b", "c"],
       [.vInt 0, .vStr "AnotherRowZero", .vStr "", .vInt 0, .vStr ""]) :=
  ⟨rfl, rfl, rfl⟩

/-- Validation of the slice-insert embedding on the growing case (the
claim's own concrete example, and the shape of the repo's heterogeneous
test): element 0 omits the zero opt-in field `y`, element 1 has it
non-zero, so the promotion fires — the union `[x, y]` is recomputed, the
second pass regenerates both rows with omission disabled, and row 0
carries `y`'s zero value explicitly. -/
theorem sliceInsert_growing_batch_promoted :
    Mapper.sliceInsert none {} [recShrinkB, recShrinkA] {} =
      { columns := ["x", "y"],
        rows := [[.vInt 3, .vInt 0], [.vInt 1, .vInt 2]] } ∧
    (Mapper.sliceInsert none {} [recShrinkB, recShrinkA] {}).rows.map List.length =
      [2, 2] := ⟨rfl, rfl⟩

/-- Witness for C4: the two general policies applied to the concrete
record. -/
theorem mapper_zero_omission_policies_witness :
    Mapper.columnsValues none recC4 { IgnoreOmitEmpty := true } =
      ((keptFields none { IgnoreOmitEmpty := true } recC4).map
          (fun fv => prepCol { IgnoreOmitEmpty := true } fv.1.Name),
       (keptFields none { IgnoreOmitEmpty := true } recC4).map (fun fv => fv.2)) ∧
    Mapper.columnsValues none recC4 { SkipZeroValues := true } =
      (((keptFields none { SkipZeroValues := true } recC4).filter
          (fun fv => !isZero fv.2)).map
          (fun fv => prepCol { SkipZeroValues := true } fv.1.Name),
       ((keptFields none { SkipZeroValues := true } recC4).filter
          (fun fv => !isZero fv.2)).map (fun fv => fv.2)) :=
  ⟨mapper_zero_omission_policies.2.1 none { IgnoreOmitEmpty := true } rfl rfl recC4,
   mapper_zero_omission_policies.2.2 none { SkipZeroValues := true } rfl recC4⟩

/-- The resolution loop succeeds on arguments that all resolve,
producing their resolved strings in order. -/
theorem resolveAll_ok (r : Referencer) (args : List RefArg) (outs : List String)
    (h : List.Forall₂ (fun a s => r.ref a = .ok s) args outs) :
    ∀ i, Referencer.resolveAll r args i = .ok outs := by
  induction h with
  | nil => intro i; rfl
  | cons ha _ ih =>
    intro i
    simp [Referencer.resolveAll, ha, ih (i + 1)]

/-- The resolution loop fails at the first unresolvable argument,
reporting its position. -/
theorem resolveAll_err (r : Referencer) (pre : List RefArg) (outs : List String)
    (hpre : List.Forall₂ (fun a s => r.ref a = .ok s) pre outs)
    (bad : RefArg) (e : String) (hbad : r.ref bad = .error e) (rest : List RefArg) :
    ∀ i, Referencer.resolveAll r (pre ++ bad :: rest) i =
      .error (e ++ " at position " ++ toString (i + pre.length)) := by
  induction hpre with
  | nil =>
    intro i
    simp [Referencer.resolveAll, hbad]
  | @cons a s pre2 outs2 ha _ ih =>
    intro i
    have harith : i + 1 + pre2.length = i + (pre2.length + 1) := by omega
    have ih1 := ih (i + 1)
    rw [harith] at ih1
    simp [Referencer.resolveAll, ha, ih1]

/-- **C2 counterexample**: `Fmt` given a raw, unregistered literal
argument (here the unregistered pointer-identity `7` standing for any
non-`Quoted` literal value, on an empty `Referencer`) panics with the
unknown-reference error instead of passing the argument through. -/
theorem fmt_literal_argument_panics :
    Referencer.Fmt {} "%s = ?" [.ptr 7] =
      .error "unknown field or row or not a pointer at position 0" := rfl

/-- **C2 amended**: `Fmt` implements the strict design: arguments are
resolved left to right — a registered pointer substitutes its resolved
reference, a `Quoted` string passes through as its own content — and the
first argument that is neither (a raw unregistered literal) makes the
call panic with the unknown-reference error naming its position; the
template is formatted only when every argument resolves. -/
theorem fmt_strict_resolution (r : Referencer) (format : String) :
    (∀ (args : List RefArg) (outs : List String),
      List.Forall₂ (fun a s => r.ref a = .ok s) args outs →
      Referencer.Fmt r format args = .ok (sprintfS format outs)) ∧
    (∀ (pre : List RefArg) (outs : List String) (bad : RefArg) (e : String)
        (rest : List RefArg),
      List.Forall₂ (fun a s => r.ref a = .ok s) pre outs →
      r.ref bad = .error e →
      Referencer.Fmt r format (pre ++ bad :: rest) =
        .error (e ++ " at position " ++ toString pre.length)) ∧
    (∀ p : Nat, lookupPtr r.refs p = none →
      Referencer.Fmt r format [.ptr p] =
        .error (errUnknownFieldOrRow ++ " at position 0")) := by
  refine ⟨?_, ?_, ?_⟩
  · intro args outs h
    simp [Referencer.Fmt, resolveAll_ok r args outs h 0]
  · intro pre outs bad e rest hpre hbad
    have := resolveAll_err r pre outs hpre bad e hbad rest 0
    simp only [Nat.zero_add] at this
    simp [Referencer.Fmt, this]
  · intro p hp
    have hbad : r.ref (.ptr p) = .error errUnknownFieldOrRow := by
      simp [Referencer.ref, hp]
    have := resolveAll_err r [] [] List.Forall₂.nil (.ptr p) errUnknownFieldOrRow hbad [] 0
    simp only [List.nil_append, List.length_nil, Nat.add_zero] at this
    simp [Referencer.Fmt, this]
    rfl

/-- Looking up the key just inserted. -/
theorem lookupPtr_insertPtr_self (m : List (Nat × α)) (k : Nat) (v : α) :
    lookupPtr (insertPtr m k v) k = some v := by
  simp [lookupPtr, insertPtr]

/-- Inserting a different key leaves a lookup unchanged. -/
theorem lookupPtr_insertPtr_ne (m : List (Nat × α)) (k k2 : Nat) (v : α)
    (h : k2 ≠ k) : lookupPtr (insertPtr m k v) k2 = lookupPtr m k2 := by
  have hk : (k == k2) = false := by
    simpa using fun hh : k = k2 => h hh.symm
  simp [lookupPtr, insertPtr, List.find?_cons, hk]

/-- The `AddTableAlias` loop never touches the quoter, the mapper or the
struct-reference registry of its accumulator. -/
theorem addAliasFold_preserves (r : Referencer) (als : String)
    (f : List (Nat × String)) (acc : Referencer × List String) :
    (f.foldl (addAliasStep r als) acc).1.IdentifierQuoter = acc.1.IdentifierQuoter ∧
    (f.foldl (addAliasStep r als) acc).1.Mapper = acc.1.Mapper ∧
    (f.foldl (addAliasStep r als) acc).1.structRefs = acc.1.structRefs := by
  induction f generalizing acc with
  | nil => exact ⟨rfl, rfl, rfl⟩
  | cons pf rest ih => exact ih (addAliasStep r als acc pf)

/-- The `AddTableAlias` loop leaves lookups of keys it does not insert
unchanged. -/
theorem addAliasFold_notMem (r : Referencer) (als : String)
    (f : List (Nat × String)) (acc : Referencer × List String) (p : Nat)
    (hp : p ∉ f.map Prod.fst) :
    lookupPtr (f.foldl (addAliasStep r als) acc).1.refs p = lookupPtr acc.1.refs p ∧
    lookupPtr (f.foldl (addAliasStep r als) acc).1.quotedCols p =
      lookupPtr acc.1.quotedCols p ∧
    lookupPtr (f.foldl (addAliasStep r als) acc).1.columnNames p =
      lookupPtr acc.1.columnNames p := by
  induction f generalizing acc with
  | nil => exact ⟨rfl, rfl, rfl⟩
  | cons pf rest ih =>
    rw [List.map_cons, List.mem_cons, not_or] at hp
    have h := ih (addAliasStep r als acc pf) hp.2
    exact ⟨h.1.trans (lookupPtr_insertPtr_ne _ _ _ _ hp.1),
      h.2.1.trans (lookupPtr_insertPtr_ne _ _ _ _ hp.1),
      h.2.2.trans (lookupPtr_insertPtr_ne _ _ _ _ hp.1)⟩

/-- The `AddTableAlias` loop registers each of its (distinct-keyed)
entries: the qualified reference, the unqualified quoted column and the
plain column name. -/
theorem addAliasFold_mem (r : Referencer) (als : String)
    (f : List (Nat × String)) (hnd : (f.map Prod.fst).Nodup)
    (p : Nat) (nm : String) (hm : (p, nm) ∈ f) :
    ∀ acc : Referencer × List String,
    lookupPtr (f.foldl (addAliasStep r als) acc).1.refs p =
      some (if als = "" then r.Q [nm] else r.Q [als, nm]) ∧
    lookupPtr (f.foldl (addAliasStep r als) acc).1.quotedCols p = some (r.Q [nm]) ∧
    lookupPtr (f.foldl (addAliasStep r als) acc).1.columnNames p = some nm := by
  induction f with
  | nil => cases hm
  | cons pf rest ih =>
    intro acc
    rw [List.map_cons, List.nodup_cons] at hnd
    rcases List.mem_cons.mp hm with heq | hrest
    · subst heq
      have hp : p ∉ rest.map Prod.fst := hnd.1
      have h := addAliasFold_notMem r als rest
        (addAliasStep r als acc (p, nm)) p hp
      refine ⟨h.1.trans ?_, h.2.1.trans ?_, h.2.2.trans ?_⟩
      · exact lookupPtr_insertPtr_self _ _ _
      · exact lookupPtr_insertPtr_self _ _ _
      · exact lookupPtr_insertPtr_self _ _ _
    · exact ih hnd.2 hrest (addAliasStep r als acc pf)

/-- What `AddTableAlias` does to each registry, for an instance whose
field pointers are pairwise distinct: every field pointer resolves to
its alias-qualified reference, its unqualified quoted column and its
plain name; untouched pointers keep their previous resolution; a
non-empty alias registers the row pointer; quoter and mapper are
untouched. -/
theorem addTableAlias_lookup (r : Referencer) (rowPtr : Nat) (inst : PtrRec)
    (als : String)
    (hnd : ((Mapper.FindColumnNames r.Mapper inst).map Prod.fst).Nodup) :
    (∀ p nm, (p, nm) ∈ Mapper.FindColumnNames r.Mapper inst →
      lookupPtr (r.AddTableAlias rowPtr inst als).refs p =
        some (if als = "" then r.Q [nm] else r.Q [als, nm]) ∧
      lookupPtr (r.AddTableAlias rowPtr inst als).quotedCols p = some (r.Q [nm]) ∧
      lookupPtr (r.AddTableAlias rowPtr inst als).columnNames p = some nm) ∧
    (∀ p, p ∉ (Mapper.FindColumnNames r.Mapper inst).map Prod.fst → p ≠ rowPtr →
      lookupPtr (r.AddTableAlias rowPtr inst als).refs p = lookupPtr r.refs p ∧
      lookupPtr (r.AddTableAlias rowPtr inst als).quotedCols p =
        lookupPtr r.quotedCols p ∧
      lookupPtr (r.AddTableAlias rowPtr inst als).columnNames p =
        lookupPtr r.columnNames p) ∧
    (als ≠ "" → rowPtr ∉ (Mapper.FindColumnNames r.Mapper inst).map Prod.fst →
      lookupPtr (r.AddTableAlias rowPtr inst als).refs rowPtr = some (r.Q [als])) ∧
    (r.AddTableAlias rowPtr inst als).IdentifierQuoter = r.IdentifierQuoter ∧
    (r.AddTableAlias rowPtr inst als).Mapper = r.Mapper := by
  set f := Mapper.FindColumnNames r.Mapper inst with hf
  set r1 : Referencer :=
    (if als ≠ "" then { r with refs := insertPtr r.refs rowPtr (r.Q [als]) } else r)
    with hr1
  have hr1refs : ∀ p, p ≠ rowPtr → lookupPtr r1.refs p = lookupPtr r.refs p := by
    intro p hp
    rw [hr1]
    by_cases hals : als ≠ ""
    · rw [if_pos hals]
      exact lookupPtr_insertPtr_ne _ _ _ _ hp
    · rw [if_neg hals]
  have hr1qc : r1.quotedCols = r.quotedCols := by
    rw [hr1]; by_cases hals : als ≠ "" <;> simp [hals]
  have hr1cn : r1.columnNames = r.columnNames := by
    rw [hr1]; by_cases hals : als ≠ "" <;> simp [hals]
  have hr1q : r1.IdentifierQuoter = r.IdentifierQuoter := by
    rw [hr1]; by_cases hals : als ≠ "" <;> simp [hals]
  have hr1m : r1.Mapper = r.Mapper := by
    rw [hr1]; by_cases hals : als ≠ "" <;> simp [hals]
  have hres : (r.AddTableAlias rowPtr inst als).refs =
      (f.foldl (addAliasStep r als) (r1, [])).1.refs ∧
      (r.AddTableAlias rowPtr inst als).quotedCols =
        (f.foldl (addAliasStep r als) (r1, [])).1.quotedCols ∧
      (r.AddTableAlias rowPtr inst als).columnNames =
        (f.foldl (addAliasStep r als) (r1, [])).1.columnNames ∧
      (r.AddTableAlias rowPtr inst als).IdentifierQuoter =
        (f.foldl (addAliasStep r als) (r1, [])).1.IdentifierQuoter ∧
      (r.AddTableAlias rowPtr inst als).Mapper =
        (f.foldl (addAliasStep r als) (r1, [])).1.Mapper := by
    rw [Referencer.AddTableAlias, hr1, hf]
    exact ⟨rfl, rfl, rfl, rfl, rfl⟩
  have hpres := addAliasFold_preserves r als f (r1, [])
  refine ⟨?_, ?_, ?_, ?_, ?_⟩
  · intro p nm hm
    have h := addAliasFold_mem r als f hnd p nm hm (r1, [])
    exact ⟨hres.1 ▸ h.1, (hres.2.1) ▸ h.2.1, (hres.2.2.1) ▸ h.2.2⟩
  · intro p hpf hprow
    have h := addAliasFold_notMem r als f (r1, []) p hpf
    refine ⟨?_, ?_, ?_⟩
    · rw [hres.1, h.1]
      exact hr1refs p hprow
    · rw [hres.2.1, h.2.1, hr1qc]
    · rw [hres.2.2.1, h.2.2, hr1cn]
  · intro hals hrow
    have h := addAliasFold_notMem r als f (r1, []) rowPtr hrow
    rw [hres.1, h.1, hr1]
    rw [if_pos hals]
    exact lookupPtr_insertPtr_self _ _ _
  · rw [hres.2.2.2.1, hpres.1, hr1q]
  · rw [hres.2.2.2.2, hpres.2.1, hr1m]

/-- A quoter-field equality transports `Referencer.Q`. -/
theorem Q_congr (r r2 : Referencer) (h : r2.IdentifierQuoter = r.IdentifierQuoter)
    (parts : List String) : r2.Q parts = r.Q parts := by
  simp [Referencer.Q, h]

/-- **C10**: `Quoted` arguments resolve to their own content on any
`Referencer` without registration, through `Ref`, `Refs` and `Fmt`; a
non-`Quoted` unregistered argument fails the lookup; a `NoTable` wrapper
around a registered field pointer redirects the lookup to the
unqualified quoted-column registry, yielding the quoted column name
without its table/alias qualification. -/
theorem quoted_noTable_resolution :
    (∀ (r : Referencer) (s : String), Referencer.Ref r (.quoted s) = .ok s) ∧
    (∀ (r : Referencer) (ss : List String),
      Referencer.Refs r (ss.map RefArg.quoted) = .ok ss) ∧
    (∀ (r : Referencer) (f : String) (ss : List String),
      Referencer.Fmt r f (ss.map RefArg.quoted) = .ok (sprintfS f ss)) ∧
    (∀ (r : Referencer) (p : Nat), lookupPtr r.refs p = none →
      Referencer.Ref r (.ptr p) = .error errUnknownFieldOrRow) ∧
    (∀ (r : Referencer) (rowPtr : Nat) (inst : PtrRec) (als : String),
      ((Mapper.FindColumnNames r.Mapper inst).map Prod.fst).Nodup → als ≠ "" →
      ∀ p nm, (p, nm) ∈ Mapper.FindColumnNames r.Mapper inst →
        Referencer.Ref (r.AddTableAlias rowPtr inst als) (.noTable p) =
          .ok (r.Q [nm]) ∧
        Referencer.Ref (r.AddTableAlias rowPtr inst als) (.ptr p) =
          .ok (r.Q [als, nm])) := by
  have hq : ∀ (r : Referencer) (ss : List String),
      List.Forall₂ (fun a s => Referencer.ref r a = .ok s) (ss.map RefArg.quoted) ss := by
    intro r ss
    induction ss with
    | nil => exact List.Forall₂.nil
    | cons s rest ih => exact List.Forall₂.cons rfl ih
  refine ⟨fun r s => rfl, ?_, ?_, ?_, ?_⟩
  · intro r ss
    exact resolveAll_ok r _ ss (hq r ss) 0
  · intro r f ss
    simp [Referencer.Fmt, resolveAll_ok r _ ss (hq r ss) 0]
  · intro r p hp
    simp [Referencer.Ref, Referencer.ref, hp]
  · intro r rowPtr inst als hnd hals p nm hm
    have h := (addTableAlias_lookup r rowPtr inst als hnd).1 p nm hm
    rw [if_neg hals] at h
    constructor
    · simp [Referencer.Ref, Referencer.ref, h.2.1]
    · simp [Referencer.Ref, Referencer.ref, h.1]

/-- Witness for C10: a concrete single-field instance registered under
alias `t`: `NoTable` drops the qualification, the plain pointer keeps
it; a `Quoted` argument and an unregistered pointer behave as stated. -/
theorem quoted_noTable_resolution_witness :
    Referencer.Ref ({} : Referencer) (.quoted "users.id") = .ok "users.id" ∧
    Referencer.Ref ({} : Referencer) (.ptr 9) = .error errUnknownFieldOrRow ∧
    Referencer.Ref (Referencer.AddTableAlias {} 0
        [(1, { goName := "ID", tag := "id" })] "t") (.noTable 1) = .ok "id" ∧
    Referencer.Ref (Referencer.AddTableAlias {} 0
        [(1, { goName := "ID", tag := "id" })] "t") (.ptr 1) = .ok "t.id" :=
  ⟨quoted_noTable_resolution.1 {} "users.id",
   quoted_noTable_resolution.2.2.2.1 {} 9 rfl,
   ((quoted_noTable_resolution.2.2.2.2 {} 0 [(1, { goName := "ID", tag := "id" })] "t"
      (by decide) (by decide) 1 "id" (by decide)).1).trans rfl,
   ((quoted_noTable_resolution.2.2.2.2 {} 0 [(1, { goName := "ID", tag := "id" })] "t"
      (by decide) (by decide) 1 "id" (by decide)).2).trans rfl⟩

/-- **C5**: pointer-identity semantics of the `Referencer`.  Two
distinct instances (disjoint pointer tokens) of possibly structurally
identical record types registered under different aliases resolve
independently; every pointer registered by neither call (and absent from
the initial registry) fails to resolve; re-registering the first
instance under a new (non-empty) alias replaces its resolutions
entirely: the row and field pointers resolve via the new alias, no
longer via the old one. -/
theorem referencer_pointer_identity
    (r0 : Referencer) (rowPtr1 rowPtr2 : Nat) (inst1 inst2 : PtrRec)
    (als1 als2 als3 : String) (f1 f2 : List (Nat × String))
    (hf1 : Mapper.FindColumnNames r0.Mapper inst1 = f1)
    (hf2 : Mapper.FindColumnNames r0.Mapper inst2 = f2)
    (hnd1 : (f1.map Prod.fst).Nodup) (hnd2 : (f2.map Prod.fst).Nodup)
    (hdisj : ∀ p, p ∈ f1.map Prod.fst → p ∉ f2.map Prod.fst)
    (h11 : rowPtr1 ∉ f1.map Prod.fst) (h12 : rowPtr1 ∉ f2.map Prod.fst)
    (h21 : rowPtr2 ∉ f1.map Prod.fst) (h22 : rowPtr2 ∉ f2.map Prod.fst)
    (hrr : rowPtr1 ≠ rowPtr2)
    (ha1 : als1 ≠ "") (ha2 : als2 ≠ "") (ha3 : als3 ≠ "") :
    (∀ p nm, (p, nm) ∈ f1 →
      Referencer.Ref ((r0.AddTableAlias rowPtr1 inst1 als1).AddTableAlias
        rowPtr2 inst2 als2) (.ptr p) = .ok (r0.Q [als1, nm])) ∧
    (∀ p nm, (p, nm) ∈ f2 →
      Referencer.Ref ((r0.AddTableAlias rowPtr1 inst1 als1).AddTableAlias
        rowPtr2 inst2 als2) (.ptr p) = .ok (r0.Q [als2, nm])) ∧
    (Referencer.Ref ((r0.AddTableAlias rowPtr1 inst1 als1).AddTableAlias
        rowPtr2 inst2 als2) (.ptr rowPtr1) = .ok (r0.Q [als1]) ∧
     Referencer.Ref ((r0.AddTableAlias rowPtr1 inst1 als1).AddTableAlias
        rowPtr2 inst2 als2) (.ptr rowPtr2) = .ok (r0.Q [als2])) ∧
    (∀ p, p ∉ f1.map Prod.fst → p ∉ f2.map Prod.fst → p ≠ rowPtr1 → p ≠ rowPtr2 →
      lookupPtr r0.refs p = none →
      Referencer.Ref ((r0.AddTableAlias rowPtr1 inst1 als1).AddTableAlias
        rowPtr2 inst2 als2) (.ptr p) = .error errUnknownFieldOrRow) ∧
    (∀ p nm, (p, nm) ∈ f1 →
      Referencer.Ref (((r0.AddTableAlias rowPtr1 inst1 als1).AddTableAlias
        rowPtr2 inst2 als2).AddTableAlias rowPtr1 inst1 als3) (.ptr p) =
        .ok (r0.Q [als3, nm])) ∧
    (Referencer.Ref (((r0.AddTableAlias rowPtr1 inst1 als1).AddTableAlias
        rowPtr2 inst2 als2).AddTableAlias rowPtr1 inst1 als3) (.ptr rowPtr1) =
      .ok (r0.Q [als3])) ∧
    (r0.Q [als3] ≠ r0.Q [als1] →
      Referencer.Ref (((r0.AddTableAlias rowPtr1 inst1 als1).AddTableAlias
        rowPtr2 inst2 als2).AddTableAlias rowPtr1 inst1 als3) (.ptr rowPtr1) ≠
        .ok (r0.Q [als1])) := by
  set r1 := r0.AddTableAlias rowPtr1 inst1 als1 with hr1def
  have hnd1a : ((Mapper.FindColumnNames r0.Mapper inst1).map Prod.fst).Nodup := by
    rw [hf1]; exact hnd1
  have L1 := addTableAlias_lookup r0 rowPtr1 inst1 als1 hnd1a
  have hq1 : r1.IdentifierQuoter = r0.IdentifierQuoter := L1.2.2.2.1
  have hm1 : r1.Mapper = r0.Mapper := L1.2.2.2.2
  have hf2a : Mapper.FindColumnNames r1.Mapper inst2 = f2 := by rw [hm1, hf2]
  have hnd2a : ((Mapper.FindColumnNames r1.Mapper inst2).map Prod.fst).Nodup := by
    rw [hf2a]; exact hnd2
  set r2 := r1.AddTableAlias rowPtr2 inst2 als2 with hr2def
  have L2 := addTableAlias_lookup r1 rowPtr2 inst2 als2 hnd2a
  have hq2 : r2.IdentifierQuoter = r0.IdentifierQuoter := L2.2.2.2.1.trans hq1
  have hm2 : r2.Mapper = r0.Mapper := L2.2.2.2.2.trans hm1
  have hf1b : Mapper.FindColumnNames r2.Mapper inst1 = f1 := by rw [hm2, hf1]
  have hnd1b : ((Mapper.FindColumnNames r2.Mapper inst1).map Prod.fst).Nodup := by
    rw [hf1b]; exact hnd1
  have L3 := addTableAlias_lookup r2 rowPtr1 inst1 als3 hnd1b
  have hlook2f1 : ∀ p nm, (p, nm) ∈ f1 →
      lookupPtr r2.refs p = some (r0.Q [als1, nm]) := by
    intro p nm hm
    have hpf1 : p ∈ f1.map Prod.fst := List.mem_map_of_mem Prod.fst hm
    have hp2 : p ∉ (Mapper.FindColumnNames r1.Mapper inst2).map Prod.fst := by
      rw [hf2a]; exact hdisj p hpf1
    have hpr2 : p ≠ rowPtr2 := fun hc => h21 (hc ▸ hpf1)
    have step2 := (L2.2.1 p hp2 hpr2).1
    have step1 := (L1.1 p nm (hf1 ▸ hm)).1
    rw [if_neg (fun hc => ha1 hc)] at step1
    exact step2.trans step1
  refine ⟨?_, ?_, ⟨?_, ?_⟩, ?_, ?_, ?_, ?_⟩
  · intro p nm hm
    simp [Referencer.Ref, Referencer.ref, hlook2f1 p nm hm]
  · intro p nm hm
    have step2 := (L2.1 p nm (hf2a ▸ hm)).1
    rw [if_neg (fun hc => ha2 hc)] at step2
    rw [Q_congr r0 r1 hq1] at step2
    simp [Referencer.Ref, Referencer.ref, step2]
  · have hp2 : rowPtr1 ∉ (Mapper.FindColumnNames r1.Mapper inst2).map Prod.fst := by
      rw [hf2a]; exact h12
    have step2 := (L2.2.1 rowPtr1 hp2 hrr).1
    have step1 := L1.2.2.1 ha1 (hf1 ▸ h11)
    simp [Referencer.Ref, Referencer.ref, step2.trans step1]
  · have step2 := L2.2.2.1 ha2 (by rw [hf2a]; exact h22)
    rw [Q_congr r0 r1 hq1] at step2
    simp [Referencer.Ref, Referencer.ref, step2]
  · intro p hp1 hp2 hpr1 hpr2 hnone
    have step2 := (L2.2.1 p (by rw [hf2a]; exact hp2) hpr2).1
    have step1 := (L1.2.1 p (by rw [hf1]; exact hp1) hpr1).1
    simp [Referencer.Ref, Referencer.ref, step2.trans (step1.trans hnone)]
  · intro p nm hm
    have step3 := (L3.1 p nm (hf1b ▸ hm)).1
    rw [if_neg (fun hc => ha3 hc)] at step3
    rw [Q_congr r0 r2 hq2] at step3
    simp [Referencer.Ref, Referencer.ref, step3]
  · have step3 := L3.2.2.1 ha3 (by rw [hf1b]; exact h11)
    rw [Q_congr r0 r2 hq2] at step3
    simp [Referencer.Ref, Referencer.ref, step3]
  · intro hne
    have step3 := L3.2.2.1 ha3 (by rw [hf1b]; exact h11)
    rw [Q_congr r0 r2 hq2] at step3
    simp [Referencer.Ref, Referencer.ref, step3]
    exact fun hc => hne hc

/-- Witness for C5: two structurally identical single-field instances
under aliases `a` and `b`, the first re-registered under `c`. -/
theorem referencer_pointer_identity_witness :
    Referencer.Ref ((Referencer.AddTableAlias
        (Referencer.AddTableAlias {} 0 [(1, { goName := "ID", tag := "id" })] "a")
        10 [(11, { goName := "ID", tag := "id" })] "b")) (.ptr 1) = .ok "a.id" ∧
    Referencer.Ref ((Referencer.AddTableAlias
        (Referencer.AddTableAlias {} 0 [(1, { goName := "ID", tag := "id" })] "a")
        10 [(11, { goName := "ID", tag := "id" })] "b")) (.ptr 11) = .ok "b.id" ∧
    Referencer.Ref ((Referencer.AddTableAlias
        (Referencer.AddTableAlias {} 0 [(1, { goName := "ID", tag := "id" })] "a")
        10 [(11, { goName := "ID", tag := "id" })] "b")) (.ptr 99) =
      .error errUnknownFieldOrRow ∧
    Referencer.Ref (Referencer.AddTableAlias ((Referencer.AddTableAlias
        (Referencer.AddTableAlias {} 0 [(1, { goName := "ID", tag := "id" })] "a")
        10 [(11, { goName := "ID", tag := "id" })] "b"))
        0 [(1, { goName := "ID", tag := "id" })] "c") (.ptr 1) = .ok "c.id" ∧
    Referencer.Ref (Referencer.AddTableAlias ((Referencer.AddTableAlias
        (Referencer.AddTableAlias {} 0 [(1, { goName := "ID", tag := "id" })] "a")
        10 [(11, { goName := "ID", tag := "id" })] "b"))
        0 [(1, { goName := "ID", tag := "id" })] "c") (.ptr 0) = .ok "c" := by
  have h := referencer_pointer_identity {} 0 10
    [(1, { goName := "ID", tag := "id" })] [(11, { goName := "ID", tag := "id" })]
    "a" "b" "c" [(1, "id")] [(11, "id")] rfl rfl (by decide) (by decide)
    (by decide) (by decide) (by decide) (by decide) (by decide) (by decide)
    (by decide) (by decide) (by decide)
  exact ⟨(h.1 1 "id" (by decide)).trans rfl,
    (h.2.1 11 "id" (by decide)).trans rfl,
    h.2.2.2.1 99 (by decide) (by decide) (by decide) (by decide) rfl,
    (h.2.2.2.2.1 1 "id" (by decide)).trans rfl,
    (h.2.2.2.2.2.1).trans rfl⟩

/-- `errors.Is` is reflexive. -/
theorem errIs_refl (e : Err) : Err.errIs e e = true := by
  cases e <;> simp [Err.errIs]

/-- **C3 counterexample**: with no transaction in context, a callback
error and a failing rollback, `InTx` returns the wrapped rollback error;
the original callback error is demoted to a structured detail field and
is no longer in the unwrap chain (`errors.Is` no longer matches it),
contradicting "the original error is still propagated ... rather than
being replaced by the rollback error". -/
theorem inTx_rollback_failure_replaces_original :
    InTx { beginRes := .ok 0, commitRes := fun _ => none,
           rollbackRes := fun _ => some (.base "rollback failed") } none
        (fun _ => some (.base "original")) =
      (some (.wrapDetail "failed to rollback" (.base "rollback failed")
        (.base "original")), [.beginTx, .rollback]) ∧
    Err.errIs (.wrapDetail "failed to rollback" (.base "rollback failed")
        (.base "original")) (.base "original") = false ∧
    Err.errIs (.wrapDetail "failed to rollback" (.base "rollback failed")
        (.base "original")) (.base "rollback failed") = true :=
  ⟨rfl, by decide, by decide⟩

/-- **C3 amended**: `InTx` with a transaction already in context runs
the callback against that context and returns its error unchanged,
performing no begin, commit or rollback; with no transaction it begins
one (wrapping a begin failure), commits on callback success (wrapping a
commit failure), and on callback error attempts rollback exactly once:
a successful rollback propagates the original error, a failed rollback
returns the rollback error wrapped as "failed to rollback" with the
original error embedded as its structured detail (so the rollback error,
not the original, is in the unwrap chain, while no error information is
dropped). -/
theorem inTx_behavior (db : DBModel) (fn : Option Tx → Option Err) :
    (∀ tx : Tx, InTx db (some tx) fn = (fn (some tx), [])) ∧
    (∀ e, db.beginRes = .error e →
      InTx db none fn = (some (.wrap "failed to begin tx" e), [.beginTx])) ∧
    (∀ tx, db.beginRes = .ok tx → fn (some tx) = none → db.commitRes tx = none →
      InTx db none fn = (none, [.beginTx, .commit])) ∧
    (∀ tx ce, db.beginRes = .ok tx → fn (some tx) = none →
      db.commitRes tx = some ce →
      InTx db none fn = (some (.wrap "failed to commit" ce), [.beginTx, .commit])) ∧
    (∀ tx e, db.beginRes = .ok tx → fn (some tx) = some e →
      db.rollbackRes tx = none →
      InTx db none fn = (some e, [.beginTx, .rollback])) ∧
    (∀ tx e re, db.beginRes = .ok tx → fn (some tx) = some e →
      db.rollbackRes tx = some re →
      InTx db none fn =
        (some (.wrapDetail "failed to rollback" re e), [.beginTx, .rollback]) ∧
      Err.errIs (.wrapDetail "failed to rollback" re e) re = true) := by
  refine ⟨fun tx => rfl, ?_, ?_, ?_, ?_, ?_⟩
  · intro e hb
    simp [InTx, hb]
  · intro tx hb hf hc
    simp [InTx, submitTx, hb, hf, hc]
  · intro tx ce hb hf hc
    simp [InTx, submitTx, hb, hf, hc]
  · intro tx e hb hf hr
    simp [InTx, submitTx, hb, hf, hr]
  · intro tx e re hb hf hr
    constructor
    · simp [InTx, submitTx, hb, hf, hr]
    · simp only [Err.errIs]
      rw [errIs_refl re]
      simp

/-- Witness for C3's amended theorem: the reuse case and the
rollback-failure case at concrete outcomes. -/
theorem inTx_behavior_witness :
    InTx { beginRes := .ok 0, commitRes := fun _ => none,
           rollbackRes := fun _ => some (.base "rb") } (some 5)
        (fun _ => some (.base "cb")) = (some (.base "cb"), []) ∧
    InTx { beginRes := .ok 0, commitRes := fun _ => none,
           rollbackRes := fun _ => some (.base "rb") } none
        (fun _ => some (.base "cb")) =
      (some (.wrapDetail "failed to rollback" (.base "rb") (.base "cb")),
        [.beginTx, .rollback]) := by
  have h := inTx_behavior
    { beginRes := Except.ok 0, commitRes := fun _ => none,
      rollbackRes := fun _ => some (Err.base "rb") }
    (fun _ => some (Err.base "cb"))
  exact ⟨h.1 5, (h.2.2.2.2.2 0 (Err.base "cb") (Err.base "rb") rfl rfl rfl).1⟩

/-- **C9 counterexample**: `Insert` with the `InsertIgnore` option on a
nil `*Mapper` reads `sm.Dialect` directly and crashes with a nil-pointer
dereference instead of falling back to the default mapper; the same call
on an explicitly constructed zero-value `Mapper` panics with the
deliberate unknown-dialect message — the results differ. -/
theorem nilMapper_insertIgnore_crash :
    Mapper.Insert none {} (.struct recC4) { InsertIgnore := true } =
      .error "runtime error: invalid memory address or nil pointer dereference" ∧
    Mapper.Insert (some defaultMapper) {} (.struct recC4) { InsertIgnore := true } =
      .error "can not apply INSERT IGNORE for unknown dialect" := ⟨rfl, rfl⟩

/-- `Mapper.columnsValues` falls back identically for a nil mapper. -/
theorem columnsValues_nilFallback (v : Rec) (o : Options) :
    Mapper.columnsValues none v o = Mapper.columnsValues (some defaultMapper) v o := rfl

/-- The `sliceInsert` loop falls back identically for a nil mapper. -/
theorem sliceInsertGo_nilFallback (o : Options) (l : List Rec) :
    ∀ (first : Bool) (st : SliceState),
      sliceInsertGo none o l first st = sliceInsertGo (some defaultMapper) o l first st := by
  induction l with
  | nil => intro first st; rfl
  | cons item rest ih =>
    intro first st
    simp only [sliceInsertGo, columnsValues_nilFallback]
    exact ih _ _

/-- The `heterogeneousInsert` loop falls back identically for a nil
mapper. -/
theorem hetInsertGo_nilFallback (o : Options) (l : List Rec) :
    ∀ (first : Bool) (q : InsertBuilder),
      hetInsertGo none o l first q = hetInsertGo (some defaultMapper) o l first q := by
  induction l with
  | nil => intro first q; rfl
  | cons item rest ih =>
    intro first q
    simp only [hetInsertGo, columnsValues_nilFallback]
    exact ih _ _

/-- `sliceInsert` falls back identically for a nil mapper. -/
theorem sliceInsert_nilFallback (q : InsertBuilder) (l : List Rec) (o : Options) :
    Mapper.sliceInsert none q l o = Mapper.sliceInsert (some defaultMapper) q l o := by
  simp only [Mapper.sliceInsert, Mapper.heterogeneousInsert,
    sliceInsertGo_nilFallback, hetInsertGo_nilFallback]

/-- **C9 amended**: every listed mapper operation invoked through a nil
`*Mapper` receiver falls back to the process-wide default mapper and
produces the same result as on an explicitly constructed zero-value
`Mapper` — except `Insert` when the `InsertIgnore` option is requested,
which reads the `Dialect` field directly and nil-dereferences.  The
zero-value `Mapper` has a nil `ReflectMapper`, covered by the same
equalities through the `reflectMapper` fallback. -/
theorem nilMapper_fallback :
    (mapper none = defaultMapper) ∧
    (∀ (q : InsertBuilder) (val : InsertVal) (o : Options), o.InsertIgnore = false →
      Mapper.Insert none q val o = Mapper.Insert (some defaultMapper) q val o) ∧
    (∀ (q : UpdateBuilder) (val : Option Rec) (o : Options),
      Mapper.Update none q val o = Mapper.Update (some defaultMapper) q val o) ∧
    (∀ (q : SelectBuilder) (c : ColsArg) (o : Options),
      Mapper.Select none q c o = Mapper.Select (some defaultMapper) q c o) ∧
    (∀ (v : Rec) (o : Options),
      Mapper.WhereEq none v o = Mapper.WhereEq (some defaultMapper) v o) ∧
    (∀ (v : Rec) (o : Options),
      Mapper.columnsValues none v o = Mapper.columnsValues (some defaultMapper) v o) ∧
    (∀ v : PtrRec,
      Mapper.FindColumnNames none v = Mapper.FindColumnNames (some defaultMapper) v) ∧
    (∀ (v : PtrRec) (p : Nat),
      Mapper.Col none v p = Mapper.Col (some defaultMapper) v p) := by
  refine ⟨rfl, ?_, fun q val o => rfl, fun q c o => rfl, fun v o => rfl,
    fun v o => rfl, fun v => rfl, fun v p => rfl⟩
  intro q val o h
  cases val with
  | nilVal => rfl
  | slice l => simp only [Mapper.Insert, sliceInsert_nilFallback]
  | struct v => simp [Mapper.Insert, h, columnsValues_nilFallback]

/-- Witness for C9's amended theorem: the `Insert` equality at a
concrete record without `InsertIgnore`. -/
theorem nilMapper_fallback_witness :
    Mapper.Insert none {} (.struct recC4) {} =
      Mapper.Insert (some defaultMapper) {} (.struct recC4) {} :=
  nilMapper_fallback.2.1 {} (.struct recC4) {} rfl

/-- Witness for C2's amended theorem: one fully resolvable call (a
`Quoted` argument and a registered pointer) and one failing call at a
concrete position. -/
theorem fmt_strict_resolution_witness :
    Referencer.Fmt { refs := [(3, "t.c")] } "%s = %s" [.quoted "x", .ptr 3] =
      .ok "x = t.c" ∧
    Referencer.Fmt { refs := [(3, "t.c")] } "%s = %s" [.quoted "x", .ptr 9] =
      .error "unknown field or row or not a pointer at position 1" :=
  ⟨(fmt_strict_resolution { refs := [(3, "t.c")] } "%s = %s").1
      [.quoted "x", .ptr 3] ["x", "t.c"]
      (List.Forall₂.cons rfl (List.Forall₂.cons rfl List.Forall₂.nil)),
   ((fmt_strict_resolution { refs := [(3, "t.c")] } "%s = %s").2.1
      [.quoted "x"] ["x"] (.ptr 9) errUnknownFieldOrRow []
      (List.Forall₂.cons rfl List.Forall₂.nil) rfl).trans rfl⟩

end Sqluct
